import Mathlib

/-!
Verification of the `scm-bitbucket` adapter (`src/index.js`).

The development shallowly embeds the webhook-normalization, token-lifecycle,
webhook-registration and response-validation code of `index.js` into Lean.
JavaScript values appearing in webhook payloads are modelled by a JSON value
type; JavaScript `undefined` is modelled by `Option.none`; a synchronous
JavaScript `throw` is modelled by `Except.error`.  External collaborators
(`hoek.reach`, Node's legacy `url.parse`, `JSON.stringify`) are modelled from
their documented behavior on the inputs this adapter feeds them.
-/

namespace Bitbucket

mutual

/-- JSON value model for webhook payloads and response bodies.  Mutual with
explicit list types so that all recursions below are structural. -/
inductive Json where
  | null : Json
  | bool (b : Bool) : Json
  | num (n : Int) : Json
  | str (s : String) : Json
  | arr (elems : JsonList) : Json
  | obj (fields : JsonFields) : Json

/-- List of JSON values (elements of a JSON array). -/
inductive JsonList where
  | nil : JsonList
  | cons (hd : Json) (tl : JsonList) : JsonList

/-- Fields of a JSON object, in insertion order. -/
inductive JsonFields where
  | nil : JsonFields
  | cons (key : String) (val : Json) (tl : JsonFields) : JsonFields

end

/-- Build a JSON object from a key/value list (helper for payload literals). -/
def Json.mkObj (l : List (String × Json)) : Json :=
  Json.obj (l.foldr (fun kv acc => JsonFields.cons kv.1 kv.2 acc) JsonFields.nil)

/-- Build a JSON array from a list (helper for payload literals). -/
def Json.mkArr (l : List Json) : Json :=
  Json.arr (l.foldr JsonList.cons JsonList.nil)

/-- First key match in a JSON object (JavaScript property lookup). -/
def jsonLookup : JsonFields → String → Option Json
  | .nil, _ => none
  | .cons k v tl, key => if k = key then some v else jsonLookup tl key

/-- Head element of a JSON array (JavaScript `a[0]`). -/
def jsonHead : JsonList → Option Json
  | .nil => none
  | .cons hd _ => some hd

/-- Model of `hoek.reach(obj, 'a.b.c')`: walks the path through nested
objects, producing `none` (JS `undefined`) as soon as a step is missing or the
current value is not an object.  `hoek.reach` never throws. -/
def reach : Json → List String → Option Json
  | j, [] => some j
  | .obj fs, k :: rest =>
    match jsonLookup fs k with
    | some v => reach v rest
    | none => none
  | _, _ :: _ => none

/-- `hoek.reach` applied to a possibly-`undefined` base object
(`hoek.reach(undefined, path)` is `undefined`). -/
def reachOpt (o : Option Json) (path : List String) : Option Json :=
  o.bind (fun j => reach j path)

/-- A synchronous JavaScript exception (the adapter only distinguishes
"some TypeError was thrown"). -/
inductive JsErr where
  | typeError : JsErr
deriving DecidableEq

/-- JavaScript `changes[0]`: throws a TypeError when `changes` is `undefined`
or `null`; yields the element (or `undefined`) on arrays; property `"0"` on
objects; first character on strings; `undefined` on other primitives. -/
def jsIndexZero : Option Json → Except JsErr (Option Json)
  | none => .error .typeError
  | some .null => .error .typeError
  | some (.arr es) => .ok (jsonHead es)
  | some (.obj fs) => .ok (jsonLookup fs "0")
  | some (.str s) => .ok ((s.data[0]?).map (fun c => Json.str (String.mk [c])))
  | some (.bool _) => .ok none
  | some (.num _) => .ok none

/-- Result object of Node's legacy `url.parse`; fields that `url.parse` sets
to `null` are modelled as `none`. -/
structure UrlParts where
  protocol : Option String
  hostname : Option String
  pathname : Option String
deriving DecidableEq

/-- Model of Node's legacy `url.parse(s)` restricted to what `_parseHook`
reads (protocol, hostname, pathname), for absolute `scheme://...` URLs with a
nonempty path, no port, no query and no fragment; the userinfo part before the
last `@` of the authority is stripped and the hostname is lowercased, as
`url.parse` does.  Strings of any other shape yield the legacy fallback
`protocol = hostname = null`, `pathname = s`. -/
def urlParse (s : String) : UrlParts :=
  match s.data.splitOn '/' with
  | proto :: [] :: authority :: pathSegs =>
    if proto ≠ [] ∧ proto.getLast? = some ':' then
      let afterAuth : List Char :=
        match authority.splitOn '@' with
        | [x] => x
        | [] => []
        | _ :: rest => (rest.getLast?).getD []
      let host := ((afterAuth.splitOn ':').headD []).map Char.toLower
      { protocol := some (String.mk proto)
        hostname := some (String.mk host)
        pathname := some (String.mk ('/' :: List.intercalate ['/'] pathSegs)) }
    else { protocol := none, hostname := none, pathname := some s }
  | _ => { protocol := none, hostname := none, pathname := some s }

/-- The template string
`` `${link.protocol}//${link.hostname}${link.pathname}.git` `` of
`_parseHook` (`null` fields interpolate as the string `"null"`). -/
def renderCheckoutUrl (u : UrlParts) : String :=
  u.protocol.getD "null" ++ "//" ++ u.hostname.getD "null" ++
    u.pathname.getD "null" ++ ".git"

/-- The constructor-pinned hostname (`this.hostname = 'bitbucket.org'`). -/
def hostnameCfg : String := "bitbucket.org"

/-- `_getScmContexts()` returns `` [`bitbucket:${this.hostname}`] ``. -/
def getScmContexts : List String := ["bitbucket:" ++ hostnameCfg]

/-- `scmContexts[0]`, the value stored in `parsed.scmContext`. -/
def scmContext0 : String := (getScmContexts.headD "")

/-- The webhook request headers read by `_parseHook`:
`headers['x-event-key']` and `headers['x-request-uuid']`; an absent header is
`undefined` (`none`). -/
structure Headers where
  eventKey : Option String
  requestUuid : Option String

/-- The `parsed` object built by `_parseHook`.  Fields never assigned by the
code stay `none` (absent).  Values copied out of the payload by `hoek.reach`
are JSON values and may themselves be `undefined` (`none`). -/
structure ParsedHook where
  type : Option Json := none
  action : Option Json := none
  username : Option Json := none
  checkoutUrl : Option Json := none
  branch : Option Json := none
  sha : Option Json := none
  prNum : Option Json := none
  prRef : Option Json := none
  lastCommitMessage : Option Json := none
  hookId : Option Json := none
  scmContext : Option Json := none

/-- `headers['x-event-key'].split(':')` on the character sequence. -/
def eventParts (ek : String) : List (List Char) := ek.data.splitOn ':'

/-- `typeHeader`: first chunk of the split (never `undefined` in JS). -/
def typeHeaderOf (ek : String) : String := String.mk ((eventParts ek).headD [])

/-- `actionHeader`: second chunk of the split, `undefined` when absent. -/
def actionHeaderOf (ek : String) : Option String :=
  ((eventParts ek)[1]?).map String.mk

/-- The common tail of the `pullrequest` cases of `_parseHook`: the fields
shared by the `opened`/`synchronized`/`closed` actions (`a` is the already
mapped `parsed.action`).  `url.parse` throws on the non-string `href`
produced by a malformed payload. -/
def prCase (headers : Headers) (payload : Json) (a : String) :
    Except JsErr (Option ParsedHook) :=
  match reach payload ["repository", "links", "html", "href"] with
  | some (.str href) =>
    .ok (some
      { type := some (.str "pr")
        action := some (.str a)
        username := reach payload ["actor", "uuid"]
        checkoutUrl := some (.str (renderCheckoutUrl (urlParse href)))
        branch := reach payload ["pullrequest", "destination", "branch", "name"]
        sha := reach payload ["pullrequest", "source", "commit", "hash"]
        prNum := reach payload ["pullrequest", "id"]
        prRef := reach payload ["pullrequest", "source", "branch", "name"]
        hookId := headers.requestUuid.map Json.str
        scmContext := some (.str scmContext0) })
  | _ => .error .typeError

/-- `_parseHook(headers, payload)` (src/index.js lines 325-378).
`.error` models a synchronous throw (the function is not `async`; nothing in
its body catches); `.ok none` models `Promise.resolve(null)`.  In the
`repo:push` case the `url.parse` of the repository link runs before the
`changes[0]` access, matching the statement order of the source. -/
def parseHook (headers : Headers) (payload : Json) : Except JsErr (Option ParsedHook) :=
  match headers.eventKey with
  | none => .error .typeError
  | some ek =>
    if typeHeaderOf ek = "repo" then
      if actionHeaderOf ek ≠ some "push" then .ok none
      else
        match reach payload ["repository", "links", "html", "href"] with
        | some (.str href) =>
          match jsIndexZero (reach payload ["push", "changes"]) with
          | .error e => .error e
          | .ok elt =>
            .ok (some
              { type := some (.str "repo")
                action := some (.str "push")
                username := reach payload ["actor", "uuid"]
                checkoutUrl := some (.str (renderCheckoutUrl (urlParse href)))
                branch := reachOpt elt ["new", "name"]
                sha := reachOpt elt ["new", "target", "hash"]
                lastCommitMessage :=
                  some ((reachOpt elt ["new", "target", "message"]).getD (.str ""))
                hookId := headers.requestUuid.map Json.str
                scmContext := some (.str scmContext0) })
        | _ => .error .typeError
    else if typeHeaderOf ek = "pullrequest" then
      if actionHeaderOf ek = some "created" then prCase headers payload "opened"
      else if actionHeaderOf ek = some "updated" then prCase headers payload "synchronized"
      else if actionHeaderOf ek = some "fullfilled" ∨ actionHeaderOf ek = some "rejected" then
        prCase headers payload "closed"
      else .ok none
    else .ok none

/-- JavaScript `s.split('//')` (multi-character separator), written as a
structural recursion on the character sequence. -/
def splitSeqGo (s0 : Char) (srest : List Char) : List Char → List Char → List (List Char)
  | acc, [] => [acc.reverse]
  | acc, c :: rest =>
    if (s0 :: srest).isPrefixOf (c :: rest) then
      acc.reverse :: splitSeqGo s0 srest [] (rest.drop srest.length)
    else
      splitSeqGo s0 srest (c :: acc) rest
termination_by _ l => l.length
decreasing_by
  · simp only [List.length_cons, List.length_drop]
    omega
  · simp only [List.length_cons]
    omega

/-- JavaScript `s.split(sep)` for a nonempty separator string. -/
def jsSplit (sep : String) (s : String) : List String :=
  match sep.data with
  | [] => [s]
  | c :: cs => (splitSeqGo c cs [] s.data).map String.mk

/-- The host-comparison stage of `_canHandleWebhook`:
`const [, checkoutUrlHost] = parseResult.checkoutUrl.split('//')` followed by
`checkoutUrlHost.startsWith(this.hostname)`.  A TypeError raised here (non-
string `checkoutUrl`, or no `//` in it) happens inside the `.then` callback,
so the trailing `.catch` maps it to `false`. -/
def hostCheck (parsed : ParsedHook) : Bool :=
  match parsed.checkoutUrl with
  | some (.str s) =>
    match (jsSplit "//" s)[1]? with
    | some host => hostnameCfg.data.isPrefixOf host.data
    | none => false
  | _ => false

/-- `_canHandleWebhook(headers, payload)` (src/index.js lines 913-925).
`_parseHook` is invoked synchronously, so an exception it throws propagates
out of `_canHandleWebhook` before the promise chain (and its `.catch`)
exists; only rejections/throws arising inside the `.then` callback are caught
and mapped to `false` (folded into `hostCheck`). -/
def canHandleWebhook (headers : Headers) (payload : Json) : Except JsErr Bool :=
  match parseHook headers payload with
  | .error e => .error e
  | .ok none => .ok false
  | .ok (some parsed) => .ok (hostCheck parsed)



mutual

/-- Model of `JSON.stringify` on parsed JSON values (string escaping beyond
the quote delimiters is not needed by the claims and is left verbatim). -/
def jsonStringify : Json → String
  | .null => "null"
  | .bool true => "true"
  | .bool false => "false"
  | .num n => toString n
  | .str s => "\"" ++ s ++ "\""
  | .arr es => "[" ++ stringifyElems es ++ "]"
  | .obj fs => "\x7b" ++ stringifyFields fs ++ "\x7d"

/-- Comma-joined stringified array elements. -/
def stringifyElems : JsonList → String
  | .nil => ""
  | .cons hd .nil => jsonStringify hd
  | .cons hd tl => jsonStringify hd ++ "," ++ stringifyElems tl

/-- Comma-joined stringified object fields. -/
def stringifyFields : JsonFields → String
  | .nil => ""
  | .cons k v .nil => "\"" ++ k ++ "\":" ++ jsonStringify v
  | .cons k v tl => "\"" ++ k ++ "\":" ++ jsonStringify v ++ "," ++ stringifyFields tl

end

mutual

/-- JavaScript template-literal / `String(...)` coercion of a value, as used
by `` `${...}` `` interpolation. -/
def jsTemplate : Json → String
  | .null => "null"
  | .bool true => "true"
  | .bool false => "false"
  | .num n => toString n
  | .str s => s
  | .arr es => templateElems es
  | .obj _ => "[object Object]"

/-- `Array.prototype.toString`: elements joined with `,`; a `null` element
renders as the empty string. -/
def templateElems : JsonList → String
  | .nil => ""
  | .cons .null .nil => ""
  | .cons hd .nil => jsTemplate hd
  | .cons .null tl => "," ++ templateElems tl
  | .cons hd tl => jsTemplate hd ++ "," ++ templateElems tl

end

/-- A `{statusCode, body}` response envelope from the HTTP executor; `body`
is the parsed JSON body, `none` when the response carried no body
(JavaScript `undefined`). -/
structure HttpResponse where
  statusCode : Nat
  body : Option Json

/-- The `Error` thrown by `checkResponseError`, with the status code attached
as its `code` property. -/
structure ScmError where
  message : String
  code : Nat
deriving DecidableEq

/-- `checkResponseError(response)` (src/index.js lines 42-58): returns
silently on `200 <= statusCode < 300`; otherwise throws an `Error` whose
message is built from `body.error.message` (default
`SCM service unavailable (<code>).`) and `body.error.detail.required`
(default `JSON.stringify(body)`, which interpolates as `undefined` when the
body is absent). -/
def checkResponseError (r : HttpResponse) : Except ScmError Unit :=
  if 200 ≤ r.statusCode ∧ r.statusCode < 300 then .ok ()
  else
    let errorMessage : String :=
      match reachOpt r.body ["error", "message"] with
      | some v => jsTemplate v
      | none => "SCM service unavailable (" ++ toString r.statusCode ++ ")."
    let errorReason : String :=
      match reachOpt r.body ["error", "detail", "required"] with
      | some v => jsTemplate v
      | none =>
        match r.body with
        | some b => jsonStringify b
        | none => "undefined"
    .error
      { message := errorMessage ++ " Reason \"" ++ errorReason ++ "\""
        code := r.statusCode }

/-- Constructor-validated OAuth credentials. -/
structure OauthConfig where
  oauthClientId : String
  oauthClientSecret : String
deriving DecidableEq

/-- The in-memory service token: `this.token`, `this.refreshToken`,
`this.expiresIn` (an epoch-millisecond instant, despite the name). -/
structure TokenState where
  token : String
  refreshToken : String
  expiresIn : Int
deriving DecidableEq

/-- Constructor initialisation (src/index.js lines 129-131). -/
def initialTokenState : TokenState := { token := "", refreshToken := "", expiresIn := 0 }

/-- The form body of the token-endpoint POST. -/
structure TokenForm where
  grant_type : String
  refresh_token : Option String
deriving DecidableEq

/-- The POST request `_refreshToken` issues. -/
structure TokenRequest where
  method : String
  authUser : String
  authPass : String
  url : String
  form : TokenForm
deriving DecidableEq

/-- The request built by `_refreshToken` (src/index.js lines 1000-1021):
HTTP Basic auth with the OAuth client credentials; `client_credentials`
grant while `this.token` is still the initial empty string, `refresh_token`
grant (carrying `this.refreshToken`) afterwards. -/
def refreshTokenRequest (cfg : OauthConfig) (s : TokenState) : TokenRequest :=
  { method := "POST"
    authUser := cfg.oauthClientId
    authPass := cfg.oauthClientSecret
    url := "https://" ++ hostnameCfg ++ "/site/oauth2/access_token"
    form :=
      if s.token = "" then { grant_type := "client_credentials", refresh_token := none }
      else { grant_type := "refresh_token", refresh_token := some s.refreshToken } }

/-- Parsed body of a token-endpoint response (`JSON.parse(response.body)`). -/
structure TokenResponseBody where
  access_token : String
  refresh_token : String
  expires_in : Int
deriving DecidableEq

/-- A token-endpoint response. -/
structure TokenResponse where
  statusCode : Nat
  body : TokenResponseBody
deriving DecidableEq

/-- The error `_refreshToken` throws on a non-200 status: it carries the
status code and the (stringified) response body in its message. -/
structure RefreshError where
  statusCode : Nat
  body : TokenResponseBody
deriving DecidableEq

/-- The state update of `_refreshToken` (src/index.js lines 1023-1036): a
non-200 status throws; a 200 response installs `access_token` and
`refresh_token` and sets `expiresIn = now + expires_in * 1000`. -/
def refreshTokenStep (_s : TokenState) (now : Int) (resp : TokenResponse) :
    Except RefreshError TokenState :=
  if resp.statusCode ≠ 200 then .error { statusCode := resp.statusCode, body := resp.body }
  else
    .ok { token := resp.body.access_token
          refreshToken := resp.body.refresh_token
          expiresIn := now + resp.body.expires_in * 1000 }

/-- The staleness test of `_getToken` (src/index.js line 986):
`this.expiresIn < (new Date()).getTime() - 5000`. -/
def needsRefresh (s : TokenState) (now : Int) : Bool := decide (s.expiresIn < now - 5000)

/-- `_getToken` (src/index.js lines 983-992): runs `_refreshToken` first
exactly when the staleness test holds, then returns `this.token`.  The
second component counts the token-endpoint requests the call issues. -/
def getTokenStep (s : TokenState) (now : Int) (resp : TokenResponse) :
    Except RefreshError (TokenState × String) × Nat :=
  if needsRefresh s now then
    match refreshTokenStep s now resp with
    | .error e => (.error e, 1)
    | .ok s2 => (.ok (s2, s2.token), 1)
  else (.ok (s, s.token), 0)

/-- One entry of the hooks listing, as read by `_findWebhook` and
`_createWebhook` (`url` for matching, `uuid` for the update URL). -/
structure HookEntry where
  url : String
  uuid : String
deriving DecidableEq

/-- One page body of the hooks listing: `body.values` and `body.size`. -/
structure HooksPage where
  values : List HookEntry
  size : Nat
deriving DecidableEq

/-- `WEBHOOK_PAGE_SIZE` (src/index.js line 27). -/
def WEBHOOK_PAGE_SIZE : Nat := 30

/-- `_findWebhook` (src/index.js lines 165-191) over an abstract sequence of
2xx page bodies (`pages p` is the body answered to
`GET .../hooks?pagelen=30&page=p`; a non-2xx page rejects through
`checkResponseError` and is outside this claim).  The page is scanned with
`values.find(webhook => webhook.url === config.url)`; on
`!result && hooks.size >= WEBHOOK_PAGE_SIZE` the call recurses with
`page + 1`.  The numeric component counts the GET requests issued; `fuel`
bounds the recursion so the definition is total, and the theorems hold for
every sufficient fuel. -/
def findWebhookGo (pages : Nat → HooksPage) (target : String) :
    Nat → Nat → Option (Option HookEntry × Nat)
  | 0, _ => none
  | fuel + 1, page =>
    let hooks := pages page
    let result := hooks.values.find? (fun w => w.url == target)
    if result = none ∧ WEBHOOK_PAGE_SIZE ≤ hooks.size then
      match findWebhookGo pages target fuel (page + 1) with
      | none => none
      | some (r, n) => some (r, n + 1)
    else some (result, 1)

/-- The existing-hook information `_addWebhook` passes to `_createWebhook`
(only its `uuid` is used). -/
structure HookInfo where
  uuid : String
deriving DecidableEq

/-- The registration body built by `_createWebhook`. -/
structure WebhookBody where
  description : String
  url : String
  active : Bool
  events : List String
deriving DecidableEq

/-- The request `_createWebhook` hands to the HTTP executor. -/
structure WebhookRequest where
  body : WebhookBody
  json : Bool
  method : String
  bearer : String
  url : String
deriving DecidableEq

/-- `API_URL_V2` (src/index.js line 12). -/
def API_URL_V2 : String := "https://api.bitbucket.org/2.0"

/-- The request built by `_createWebhook` (src/index.js lines 208-233):
fixed description, `active: true`, the default event set exactly when
`config.actions.length === 0`; `POST` to the hooks collection, switched to
`PUT` on the hook's own URL (`.../hooks/<uuid>`) when `hookInfo` was
supplied. -/
def createWebhookRequest (hookInfo : Option HookInfo) (repoId token url : String)
    (actions : List String) : WebhookRequest :=
  let params : WebhookRequest :=
    { body :=
        { description := "Screwdriver-CD build trigger"
          url := url
          active := true
          events :=
            if actions.length = 0 then
              ["repo:push", "pullrequest:created", "pullrequest:fulfilled",
               "pullrequest:rejected", "pullrequest:updated"]
            else actions }
      json := true
      method := "POST"
      bearer := token
      url := API_URL_V2 ++ "/repositories/" ++ repoId ++ "/hooks" }
  match hookInfo with
  | some info => { params with url := params.url ++ "/" ++ info.uuid, method := "PUT" }
  | none => params

/-- JavaScript property-chain access `j.k1.k2...`: the result is the reached
value, or `undefined` when only the last step is missing; accessing a
property of `undefined` or `null` throws a TypeError. -/
def jsGetChain : Json → List String → Except JsErr (Option Json)
  | j, [] => .ok (some j)
  | .null, _ :: _ => .error .typeError
  | .obj fs, k :: rest =>
    match jsonLookup fs k with
    | some v => jsGetChain v rest
    | none => if rest.isEmpty then .ok none else .error .typeError
  | _, _ :: rest => if rest.isEmpty then .ok none else .error .typeError

/-- An error escaping `_getPrInfo`: either the structured error of
`checkResponseError` or a TypeError from reading the body. -/
inductive GetPrErr where
  | scm (e : ScmError)
  | js (e : JsErr)
deriving DecidableEq

/-- The object `_getPrInfo` resolves to (src/index.js lines 873-879). -/
structure PrInfo where
  name : String
  ref : Option Json
  sha : Option Json
  url : Option Json
  baseBranch : Option Json

/-- `_getPrInfo` (src/index.js lines 856-880) given the pull-request GET
response: validates it with `checkResponseError`, then maps the body `pr`
to `{name: `PR-${pr.id}`, ref: pr.source.branch.name, sha:
pr.source.commit.hash, url: pr.links.html.href, baseBranch:
pr.source.branch.name}`. -/
def getPrInfo (r : HttpResponse) : Except GetPrErr PrInfo :=
  match checkResponseError r with
  | .error e => .error (GetPrErr.scm e)
  | .ok _ =>
    match r.body with
    | none => .error (GetPrErr.js .typeError)
    | some pr =>
      match jsGetChain pr ["id"] with
      | .error e => .error (GetPrErr.js e)
      | .ok idVal =>
        match jsGetChain pr ["source", "branch", "name"] with
        | .error e => .error (GetPrErr.js e)
        | .ok srcBranch =>
          match jsGetChain pr ["source", "commit", "hash"] with
          | .error e => .error (GetPrErr.js e)
          | .ok srcHash =>
            match jsGetChain pr ["links", "html", "href"] with
            | .error e => .error (GetPrErr.js e)
            | .ok href =>
              .ok
                { name :=
                    "PR-" ++ (match idVal with | some v => jsTemplate v | none => "undefined")
                  ref := srcBranch
                  sha := srcHash
                  url := href
                  baseBranch := srcBranch }

/-- Components of a repository checkout location, used to render the ssh and
https checkout-URL forms of the same repository. -/
structure RepoComponents where
  host : String
  user : String
  repo : String
  branch : Option String

/-- Optional `#branch` suffix of a checkout URL. -/
def branchSuffix : Option String → String
  | some br => "#" ++ br
  | none => ""

/-- The ssh checkout-URL form `git@host:user/repo.git[#branch]`. -/
def renderSsh (c : RepoComponents) : String :=
  "git@" ++ c.host ++ ":" ++ c.user ++ "/" ++ c.repo ++ ".git" ++ branchSuffix c.branch

/-- The https checkout-URL form `https://user@host/user/repo.git[#branch]`
(the shape used throughout the repository's tests). -/
def renderHttps (c : RepoComponents) : String :=
  "https://" ++ c.user ++ "@" ++ c.host ++ "/" ++ c.user ++ "/" ++ c.repo ++ ".git" ++
    branchSuffix c.branch

/-- Strip the mandatory `.git` component of the checkout-URL grammar. -/
def stripGitSuffix (l : List Char) : Option (List Char) :=
  if ".git".data.isSuffixOf l then some (l.take (l.length - 4)) else none

/-- Split `repo.git[#branch]` into the repo group and the `#`-prefixed
branch group of the checkout-URL grammar. -/
def captureRepoBranch (tail : List Char) : Option (List Char × Option (List Char)) :=
  match tail.splitOn '#' with
  | [rg] => (stripGitSuffix rg).map (fun r => (r, none))
  | [rg, br] => (stripGitSuffix rg).map (fun r => (r, some ('#' :: br)))
  | _ => none

/-- Split the `user/repo.git[#branch]` path of the ssh form. -/
def captureUserPath (path : List Char) : Option (List Char × List Char × Option (List Char)) :=
  match path.splitOn '/' with
  | [user, tail] => (captureRepoBranch tail).map (fun rb => (user, rb.1, rb.2))
  | _ => none

/-- Model of the shared schema module's `CHECKOUT_URL` regular expression
(`screwdriver-data-schema`, an external collaborator): a four-group capture
(hostname, user, repo, branch group including its leading `#`) over the two
checkout-URL forms `git@host:user/repo.git[#branch]` and
`https://[auth@]host/user/repo.git[#branch]`; `none` models a failed
`regex.exec`. -/
def captureCheckoutUrl (s : String) :
    Option (List Char × List Char × List Char × Option (List Char)) :=
  if "git@".data.isPrefixOf s.data then
    match (s.data.drop 4).splitOn ':' with
    | [host, path] => (captureUserPath path).map (fun up => (host, up))
    | _ => none
  else if "https://".data.isPrefixOf s.data then
    let rest := s.data.drop 8
    let rest2 : List Char :=
      match rest.splitOn '@' with
      | [x] => x
      | [] => []
      | _ :: withHost => (withHost.getLast?).getD []
    match rest2.splitOn '/' with
    | [host, user, tail] => (captureRepoBranch tail).map (fun rb => (host, user, rb.1, rb.2))
    | _ => none
  else none

/-- The object `getRepoInfo(checkoutUrl)` builds (src/index.js lines 66-76)
from the regex groups, with `matched[4].slice(1)` applied to the branch
group. -/
structure RepoInfo where
  hostname : String
  repo : String
  branch : Option String
  username : String
deriving DecidableEq

/-- `getRepoInfo` (src/index.js lines 66-76); `none` models the TypeError on
a failed match. -/
def getRepoInfo (checkoutUrl : String) : Option RepoInfo :=
  (captureCheckoutUrl checkoutUrl).map (fun m =>
    { hostname := String.mk m.1
      username := String.mk m.2.1
      repo := String.mk m.2.2.1
      branch := m.2.2.2.map (fun g => String.mk (g.drop 1)) })

/-- The branch-ref GET response used by `_parseUrl`, abstracted to its status
code and the repository UUID carried at `body.target.repository.uuid`. -/
structure ParseUrlResponse where
  statusCode : Nat
  uuid : String
deriving DecidableEq

/-- The failure modes of `_parseUrl`. -/
inductive ParseUrlErr where
  | noMatch
  | unsupportedHost
  | notFound
  | badStatus (code : Nat)
deriving DecidableEq

/-- `_parseUrl` (src/index.js lines 280-315): regex extraction, branch
defaulted with `repoInfo.branch || 'master'`, hostname check against
`this.hostname`, 404 and non-200 rejections, and the scmUri
`` `${hostname}:${username}/${uuid}:${branch}` ``. -/
def parseUrl (checkoutUrl : String) (resp : ParseUrlResponse) : Except ParseUrlErr String :=
  match getRepoInfo checkoutUrl with
  | none => .error .noMatch
  | some info =>
    let branch : String :=
      match info.branch with
      | some b => if b = "" then "master" else b
      | none => "master"
    if info.hostname ≠ hostnameCfg then .error .unsupportedHost
    else if resp.statusCode = 404 then .error .notFound
    else if resp.statusCode ≠ 200 then .error (.badStatus resp.statusCode)
    else .ok (info.hostname ++ ":" ++ info.username ++ "/" ++ resp.uuid ++ ":" ++ branch)

/-- The destructured result of `getScmUriParts` (src/index.js lines 84-90);
positions the split does not fill are `undefined`. -/
structure ScmUriParts where
  hostname : Option String
  repoId : Option String
  branch : Option String
deriving DecidableEq

/-- `getScmUriParts(scmUri)` (src/index.js lines 84-90):
`[hostname, repoId, branch] = scmUri.split(':')`. -/
def getScmUriParts (scmUri : String) : ScmUriParts :=
  let parts := (scmUri.data.splitOn ':').map String.mk
  { hostname := parts[0]?, repoId := parts[1]?, branch := parts[2]? }

/-- The supported `(kind, action)` classification table of `_parseHook`
(spec section 4.3): `repo:push` and the four `pullrequest` actions
(`created`, `updated`, `fullfilled`, `rejected`). -/
def supportedEventPair (kind : String) (action : Option String) : Bool :=
  (kind == "repo" && action == some "push") ||
  (kind == "pullrequest" &&
    (action == some "created" || action == some "updated" ||
     action == some "fullfilled" || action == some "rejected"))

/-- The concrete `pullrequest:created` payload of the claimed test vector. -/
def prOpenedPayload : Json := Json.mkObj [
  ("repository", Json.mkObj [
    ("links", Json.mkObj [
      ("html", Json.mkObj [
        ("href", Json.str "https://bitbucket.org/batman/test")])])]),
  ("pullrequest", Json.mkObj [
    ("destination", Json.mkObj [("branch", Json.mkObj [("name", Json.str "master")])]),
    ("source", Json.mkObj [
      ("commit", Json.mkObj [("hash", Json.str "40171b678527")]),
      ("branch", Json.mkObj [("name", Json.str "mynewbranch")])]),
    ("id", Json.num 3)]),
  ("actor", Json.mkObj [("uuid", Json.str "robin")])]

/-- A concrete hooks listing: a full first page (30 entries, none matching
`"t"`, `size` 30) followed by a short second page containing the match. -/
def pagesScenario : Nat → HooksPage := fun n =>
  if n = 1 then { values := List.replicate 30 { url := "x", uuid := "u" }, size := 30 }
  else if n = 2 then { values := [{ url := "t", uuid := "u2" }], size := 1 }
  else { values := [], size := 0 }

/-- A concrete pull-request GET body (source branch `mynewbranch`,
destination branch `master`). -/
def prResponseBody : Json := Json.mkObj [
  ("id", Json.num 3),
  ("source", Json.mkObj [
    ("branch", Json.mkObj [("name", Json.str "mynewbranch")]),
    ("commit", Json.mkObj [("hash", Json.str "40171b678527")])]),
  ("destination", Json.mkObj [("branch", Json.mkObj [("name", Json.str "master")])]),
  ("links", Json.mkObj [("html", Json.mkObj [("href", Json.str "https://x/pr/3")])])]

/-! ### Helper lemmas -/

/-- `splitOn` of a chunk free of the separator is the single chunk. -/
theorem splitOn_of_not_mem {xs : List Char} {sep : Char} (h : sep ∉ xs) :
    xs.splitOn sep = [xs] := by
  simp only [List.splitOn]
  refine List.splitOnP_eq_single _ _ ?_
  intro y hy
  simp only [beq_iff_eq]
  intro he
  exact h (he ▸ hy)

/-- `splitOn` peels a leading separator-free chunk at its first separator. -/
theorem splitOn_append_sep {xs ys : List Char} {sep : Char} (h : sep ∉ xs) :
    (xs ++ sep :: ys).splitOn sep = xs :: ys.splitOn sep := by
  simp only [List.splitOn]
  refine List.splitOnP_first _ xs ?_ sep (by simp) ys
  intro y hy
  simp only [beq_iff_eq]
  intro he
  exact h (he ▸ hy)

/-! ### C1 — token staleness margin of `_getToken` -/

/-- C1 counterexample: with the stored expiry instant at 10000 ms and the
current time also 10000 ms, the claimed refresh condition
`now >= expiresAtEpochMillis - 5000` holds, yet `_getToken` issues no
token-endpoint request and returns the stored (already expired) token. -/
theorem c1_counterexample :
    (10000 : Int) ≥ 10000 - 5000 ∧
    getTokenStep { token := "t", refreshToken := "r", expiresIn := 10000 } 10000
        { statusCode := 200,
          body := { access_token := "a", refresh_token := "b", expires_in := 3600 } } =
      (.ok ({ token := "t", refreshToken := "r", expiresIn := 10000 }, "t"), 0) :=
  ⟨by decide, rfl⟩

/-- C1 (amended): `_getToken` triggers exactly one `_refreshToken` call
exactly when `expiresIn < now - 5000` (more than 5000 ms past the stored
expiry instant; true in the freshly constructed state, whose expiry is 0) and
then returns the newly installed token; otherwise it returns the stored
access-token string and issues no token-endpoint request. -/
theorem c1_token_refresh_margin (s : TokenState) (now : Int) (resp : TokenResponse) :
    (s.expiresIn < now - 5000 →
      (getTokenStep s now resp).2 = 1 ∧
      (resp.statusCode = 200 →
        (getTokenStep s now resp).1 =
          .ok ({ token := resp.body.access_token
                 refreshToken := resp.body.refresh_token
                 expiresIn := now + resp.body.expires_in * 1000 },
               resp.body.access_token))) ∧
    (now - 5000 ≤ s.expiresIn →
      getTokenStep s now resp = (.ok (s, s.token), 0)) := by
  constructor
  · intro h
    have hn : needsRefresh s now = true := by simp [needsRefresh, h]
    constructor
    · cases hrt : refreshTokenStep s now resp <;> simp [getTokenStep, hn, hrt]
    · intro h200
      simp [getTokenStep, hn, refreshTokenStep, h200]
  · intro h
    have hn : needsRefresh s now = false := by
      simp only [needsRefresh, decide_eq_false_iff_not, not_lt]
      omega
    simp [getTokenStep, hn]

/-- Witness for C1: a stale state refreshes once; a state within the margin
returns the stored token with zero requests. -/
theorem c1_witness :
    (getTokenStep { token := "", refreshToken := "", expiresIn := 0 } 20000
        { statusCode := 200,
          body := { access_token := "a", refresh_token := "b", expires_in := 3600 } }).2 = 1 ∧
    getTokenStep { token := "t", refreshToken := "r", expiresIn := 9000 } 10000
        { statusCode := 200,
          body := { access_token := "a", refresh_token := "b", expires_in := 3600 } } =
      (.ok ({ token := "t", refreshToken := "r", expiresIn := 9000 }, "t"), 0) :=
  ⟨((c1_token_refresh_margin _ 20000 _).1 (by decide)).1,
   (c1_token_refresh_margin _ 10000 _).2 (by decide)⟩

/-! ### C2 — classification totality of `_parseHook` -/

/-- C2 counterexample: a supported event key (`repo:push`) with a malformed
(empty) payload makes `_parseHook` throw a TypeError synchronously (from
`url.parse` on the missing repository link), instead of resolving to
`null`. -/
theorem c2_counterexample :
    parseHook { eventKey := some "repo:push", requestUuid := none } (Json.mkObj []) =
      .error .typeError := rfl

/-- C2 (amended): for every `x-event-key` whose `(kind, action)` pair is
outside the supported table, `_parseHook` resolves to `null`, for every
payload (well-formed or not) and without throwing; a malformed payload under
a supported pair, by contrast, throws (see the counterexample). -/
theorem c2_unsupported_events_null (ek : String) (ru : Option String) (payload : Json)
    (h : supportedEventPair (typeHeaderOf ek) (actionHeaderOf ek) = false) :
    parseHook { eventKey := some ek, requestUuid := ru } payload = .ok none := by
  simp only [parseHook]
  split_ifs with h1 h2 h3 h4 h5 <;> try rfl
  · exfalso
    have hp : actionHeaderOf ek = some "push" := not_not.mp h2
    rw [supportedEventPair, h1, hp] at h
    simp at h
  · exfalso
    rw [supportedEventPair, h3, h4] at h
    simp at h
  · exfalso
    rw [supportedEventPair, h3, h5] at h
    simp at h
  · exfalso
    rcases ‹actionHeaderOf ek = some "fullfilled" ∨ actionHeaderOf ek = some "rejected"› with
      hf | hr
    · rw [supportedEventPair, h3, hf] at h
      simp at h
    · rw [supportedEventPair, h3, hr] at h
      simp at h

/-- Witness for C2: `repo:fork` resolves to `null`. -/
theorem c2_witness :
    parseHook { eventKey := some "repo:fork", requestUuid := none } (Json.mkObj []) =
      .ok none :=
  c2_unsupported_events_null "repo:fork" none (Json.mkObj []) (by rfl)

/-! ### C3 — `_canHandleWebhook` never throws? -/

/-- C3 counterexample: with the `x-event-key` header absent, `_parseHook`
throws synchronously before any promise exists, so `_canHandleWebhook`
throws instead of resolving `false` — the `.catch` is attached too late to
see this exception. -/
theorem c3_counterexample :
    canHandleWebhook { eventKey := none, requestUuid := none } (Json.mkObj []) =
      .error .typeError := rfl

/-- C3 (amended): `_canHandleWebhook` resolves `false` when the normalizer
resolves `null`; when the normalizer resolves an event it resolves the
host-comparison result, which is `true` exactly when the normalized
`checkoutUrl` is a string whose component after the first `//` starts with
the configured hostname (exceptions inside this comparison are caught and
mapped to `false`); but a synchronous exception thrown by the normalizer
itself propagates out of `_canHandleWebhook` uncaught. -/
theorem c3_can_handle_webhook (h : Headers) (p : Json) :
    (parseHook h p = .ok none → canHandleWebhook h p = .ok false) ∧
    (∀ e, parseHook h p = .error e → canHandleWebhook h p = .error e) ∧
    (∀ parsed, parseHook h p = .ok (some parsed) →
      canHandleWebhook h p = .ok (hostCheck parsed) ∧
      (hostCheck parsed = true ↔
        ∃ s host, parsed.checkoutUrl = some (.str s) ∧
          (jsSplit "//" s)[1]? = some host ∧
          hostnameCfg.data.isPrefixOf host.data = true)) := by
  refine ⟨?_, ?_, ?_⟩
  · intro h1
    unfold canHandleWebhook
    rw [h1]
  · intro e h1
    unfold canHandleWebhook
    rw [h1]
  · intro parsed h1
    refine ⟨by unfold canHandleWebhook; rw [h1], ?_⟩
    unfold hostCheck
    rcases hcu : parsed.checkoutUrl with _ | j
    · simp [hcu]
    · cases j <;> simp only [hcu]
      case str s =>
        rcases hsp : (jsSplit "//" s)[1]? with _ | host
        · simp [hsp]
        · simp [hsp]
      all_goals simp

/-- Witness for C3: an unsupported event key resolves to `false`. -/
theorem c3_witness :
    canHandleWebhook { eventKey := some "issue:created", requestUuid := none }
      (Json.mkObj []) = .ok false :=
  (c3_can_handle_webhook _ _).1 (by rfl)

/-! ### C4 — concrete field extraction for `pullrequest:created` -/

/-- C4: on headers `x-event-key: pullrequest:created`,
`x-request-uuid: abc-123` and the claimed payload, `_parseHook` resolves to
exactly the claimed canonical event (and to nothing more: `lastCommitMessage`
stays absent). -/
theorem c4_parse_hook_pr_opened :
    parseHook { eventKey := some "pullrequest:created", requestUuid := some "abc-123" }
      prOpenedPayload =
      .ok (some
        { type := some (.str "pr")
          action := some (.str "opened")
          username := some (.str "robin")
          checkoutUrl := some (.str "https://bitbucket.org/batman/test.git")
          branch := some (.str "master")
          sha := some (.str "40171b678527")
          prNum := some (.num 3)
          prRef := some (.str "mynewbranch")
          lastCommitMessage := none
          hookId := some (.str "abc-123")
          scmContext := some (.str "bitbucket:bitbucket.org") }) := rfl

/-! ### C5 — pagination of `_findWebhook` -/

/-- C5: scanning and pagination of `_findWebhook`: a page containing the
target URL resolves to its first match after that single GET; a short
non-matching page (fewer than 30 items, `size` below `WEBHOOK_PAGE_SIZE`)
resolves to `undefined` after that single GET; a full non-matching page
recurses to the next page number, adding one GET; consequently a full
30-item page 1 without the target followed by a short page 2 containing it
costs exactly two GETs and yields the page-2 match, and a short page 1
without the target costs exactly one GET and yields `undefined`. -/
theorem c5_find_webhook_pagination (pages : Nat → HooksPage) (target : String) :
    (∀ p fuel w, (pages p).values.find? (fun w2 => w2.url == target) = some w →
      findWebhookGo pages target (fuel + 1) p = some (some w, 1)) ∧
    (∀ p fuel, (pages p).values.find? (fun w2 => w2.url == target) = none →
      (pages p).size < WEBHOOK_PAGE_SIZE →
      findWebhookGo pages target (fuel + 1) p = some (none, 1)) ∧
    (∀ p fuel, (pages p).values.find? (fun w2 => w2.url == target) = none →
      WEBHOOK_PAGE_SIZE ≤ (pages p).size →
      findWebhookGo pages target (fuel + 1) p =
        (findWebhookGo pages target fuel (p + 1)).map (fun r => (r.1, r.2 + 1))) ∧
    (∀ fuel w, (pages 1).values.length = 30 → (pages 1).size = 30 →
      (pages 1).values.find? (fun w2 => w2.url == target) = none →
      (pages 2).values.length < 30 → (pages 2).size < 30 →
      (pages 2).values.find? (fun w2 => w2.url == target) = some w →
      findWebhookGo pages target (fuel + 2) 1 = some (some w, 2)) ∧
    (∀ fuel, (pages 1).values.length < 30 → (pages 1).size < 30 →
      (pages 1).values.find? (fun w2 => w2.url == target) = none →
      findWebhookGo pages target (fuel + 1) 1 = some (none, 1)) := by
  have hfound : ∀ p fuel w, (pages p).values.find? (fun w2 => w2.url == target) = some w →
      findWebhookGo pages target (fuel + 1) p = some (some w, 1) := by
    intro p fuel w hw
    simp [findWebhookGo, hw]
  have hshort : ∀ p fuel, (pages p).values.find? (fun w2 => w2.url == target) = none →
      (pages p).size < WEBHOOK_PAGE_SIZE →
      findWebhookGo pages target (fuel + 1) p = some (none, 1) := by
    intro p fuel hn hs
    simp [findWebhookGo, hn, Nat.not_le.mpr hs]
  have hfull : ∀ p fuel, (pages p).values.find? (fun w2 => w2.url == target) = none →
      WEBHOOK_PAGE_SIZE ≤ (pages p).size →
      findWebhookGo pages target (fuel + 1) p =
        (findWebhookGo pages target fuel (p + 1)).map (fun r => (r.1, r.2 + 1)) := by
    intro p fuel hn hs
    simp only [findWebhookGo, hn, hs, and_self, if_true, true_and]
    rcases findWebhookGo pages target fuel (p + 1) with _ | ⟨r, n⟩ <;> simp
  refine ⟨hfound, hshort, hfull, ?_, ?_⟩
  · intro fuel w _ hs1 hn1 _ hs2 hw2
    rw [hfull 1 (fuel + 1) hn1 (le_of_eq hs1.symm), hfound 2 fuel w hw2]
    rfl
  · intro fuel _ hs1 hn1
    exact hshort 1 fuel hn1 hs1

/-- Witness for C5: the two concrete listing scenarios. -/
theorem c5_witness :
    findWebhookGo pagesScenario "t" 2 1 = some (some { url := "t", uuid := "u2" }, 2) ∧
    findWebhookGo (fun _ => { values := [], size := 0 }) "t" 1 1 = some (none, 1) :=
  ⟨(c5_find_webhook_pagination pagesScenario "t").2.2.2.1 0
      { url := "t", uuid := "u2" } (by decide) (by decide) (by decide) (by decide)
      (by decide) (by decide),
   (c5_find_webhook_pagination (fun _ => { values := [], size := 0 }) "t").2.2.2.2 0
      (by decide) (by decide) (by decide)⟩

/-! ### C6 — `checkResponseError` envelope translation -/

/-- C6: `checkResponseError` returns silently exactly on a 2xx status;
otherwise it throws an error whose message is
`<errorMessage> Reason "<errorReason>"`, with `errorMessage` read from
`body.error.message` (default `SCM service unavailable (<code>).`) and
`errorReason` read from `body.error.detail.required` (default the
JSON-stringified body, `undefined` when the body is absent), and with the
status code attached as the error's `code`. -/
theorem c6_check_response_error (r : HttpResponse) :
    (200 ≤ r.statusCode ∧ r.statusCode < 300 → checkResponseError r = .ok ()) ∧
    (r.statusCode < 200 ∨ 300 ≤ r.statusCode →
      checkResponseError r = .error
        { message :=
            (match reachOpt r.body ["error", "message"] with
             | some v => jsTemplate v
             | none => "SCM service unavailable (" ++ toString r.statusCode ++ ").") ++
            " Reason \"" ++
            (match reachOpt r.body ["error", "detail", "required"] with
             | some v => jsTemplate v
             | none =>
               match r.body with
               | some b => jsonStringify b
               | none => "undefined") ++ "\""
          code := r.statusCode }) := by
  constructor
  · intro h2
    rw [checkResponseError, if_pos h2]
  · intro hout
    rw [checkResponseError, if_neg (by omega)]

/-- Witness for C6: a 204 passes silently; a 403 with the provider's scope
error envelope produces the documented message with `code = 403`. -/
theorem c6_witness :
    checkResponseError { statusCode := 204, body := none } = .ok () ∧
    checkResponseError
        { statusCode := 403,
          body := some (Json.mkObj [
            ("error", Json.mkObj [
              ("message", Json.str "Your credentials lack privilege scopes."),
              ("detail", Json.mkObj [("required", Json.str "webhook")])])]) } =
      .error
        { message := "Your credentials lack privilege scopes. Reason \"webhook\""
          code := 403 } :=
  ⟨(c6_check_response_error _).1 (by decide),
   ((c6_check_response_error _).2 (by decide)).trans (by rfl)⟩

/-! ### C7 — `_createWebhook` registration request -/

/-- C7: the registration body always carries the fixed description and
`active = true`, with the caller-supplied actions when non-empty and the
fixed five-event default when empty; the request is a POST to the hooks
collection without `hookInfo` and a PUT to the hook's own uuid-keyed URL with
it. -/
theorem c7_create_webhook_request (hookInfo : Option HookInfo)
    (repoId token url : String) (actions : List String) :
    (createWebhookRequest hookInfo repoId token url actions).body =
      { description := "Screwdriver-CD build trigger"
        url := url
        active := true
        events :=
          if actions = [] then
            ["repo:push", "pullrequest:created", "pullrequest:fulfilled",
             "pullrequest:rejected", "pullrequest:updated"]
          else actions } ∧
    (hookInfo = none →
      (createWebhookRequest hookInfo repoId token url actions).method = "POST" ∧
      (createWebhookRequest hookInfo repoId token url actions).url =
        API_URL_V2 ++ "/repositories/" ++ repoId ++ "/hooks") ∧
    (∀ info, hookInfo = some info →
      (createWebhookRequest hookInfo repoId token url actions).method = "PUT" ∧
      (createWebhookRequest hookInfo repoId token url actions).url =
        API_URL_V2 ++ "/repositories/" ++ repoId ++ "/hooks/" ++ info.uuid) := by
  refine ⟨?_, ?_, ?_⟩
  · cases hookInfo <;>
      simp [createWebhookRequest, List.length_eq_zero]
  · intro hn
    subst hn
    simp [createWebhookRequest]
  · intro info hs
    subst hs
    simp [createWebhookRequest, String.append_assoc]

/-- Witness for C7: an update (PUT) request with empty actions carries the
default event set and targets the uuid-keyed URL. -/
theorem c7_witness :
    (createWebhookRequest (some { uuid := "uu" }) "repoId" "tok" "hookUrl" []).method = "PUT" ∧
    (createWebhookRequest (some { uuid := "uu" }) "repoId" "tok" "hookUrl" []).body.events =
      ["repo:push", "pullrequest:created", "pullrequest:fulfilled",
       "pullrequest:rejected", "pullrequest:updated"] :=
  ⟨((c7_create_webhook_request _ "repoId" "tok" "hookUrl" []).2.2 { uuid := "uu" } rfl).1,
   by
     rw [(c7_create_webhook_request (some { uuid := "uu" }) "repoId" "tok" "hookUrl" []).1]
     rfl⟩

/-! ### C9 — `_refreshToken` grant selection and state update -/

/-- C9: `_refreshToken` always POSTs with HTTP Basic auth from the client
credentials; it uses the `client_credentials` grant exactly while no token
has ever been issued (`this.token` still the initial empty string) and the
`refresh_token` grant carrying the stored refresh token afterwards; a 200
response installs the body's tokens with
`expiresIn = now + expires_in * 1000`, and any non-200 response throws an
error carrying the status and response body. -/
theorem c9_refresh_token (cfg : OauthConfig) (s : TokenState) (now : Int)
    (resp : TokenResponse) :
    ((refreshTokenRequest cfg s).method = "POST" ∧
     (refreshTokenRequest cfg s).authUser = cfg.oauthClientId ∧
     (refreshTokenRequest cfg s).authPass = cfg.oauthClientSecret ∧
     (refreshTokenRequest cfg s).url = "https://bitbucket.org/site/oauth2/access_token") ∧
    (s.token = "" →
      (refreshTokenRequest cfg s).form =
        { grant_type := "client_credentials", refresh_token := none }) ∧
    (s.token ≠ "" →
      (refreshTokenRequest cfg s).form =
        { grant_type := "refresh_token", refresh_token := some s.refreshToken }) ∧
    (resp.statusCode = 200 →
      refreshTokenStep s now resp = .ok
        { token := resp.body.access_token
          refreshToken := resp.body.refresh_token
          expiresIn := now + resp.body.expires_in * 1000 }) ∧
    (resp.statusCode ≠ 200 →
      refreshTokenStep s now resp =
        .error { statusCode := resp.statusCode, body := resp.body }) := by
  refine ⟨⟨rfl, rfl, rfl, rfl⟩, ?_, ?_, ?_, ?_⟩
  · intro h
    simp [refreshTokenRequest, h]
  · intro h
    simp [refreshTokenRequest, h]
  · intro h
    simp [refreshTokenStep, h]
  · intro h
    simp [refreshTokenStep, h]

/-- Witness for C9: initial state uses `client_credentials`; a primed state
uses `refresh_token`; a 200 installs the body, a 401 throws. -/
theorem c9_witness :
    (refreshTokenRequest { oauthClientId := "id", oauthClientSecret := "sec" }
        { token := "", refreshToken := "", expiresIn := 0 }).form =
      { grant_type := "client_credentials", refresh_token := none } ∧
    (refreshTokenRequest { oauthClientId := "id", oauthClientSecret := "sec" }
        { token := "t", refreshToken := "r", expiresIn := 5 }).form =
      { grant_type := "refresh_token", refresh_token := some "r" } ∧
    refreshTokenStep { token := "", refreshToken := "", expiresIn := 0 } 1000
        { statusCode := 200,
          body := { access_token := "a", refresh_token := "b", expires_in := 7200 } } =
      .ok { token := "a", refreshToken := "b", expiresIn := 1000 + 7200 * 1000 } ∧
    refreshTokenStep { token := "", refreshToken := "", expiresIn := 0 } 1000
        { statusCode := 401,
          body := { access_token := "", refresh_token := "", expires_in := 0 } } =
      .error { statusCode := 401,
               body := { access_token := "", refresh_token := "", expires_in := 0 } } :=
  ⟨(c9_refresh_token { oauthClientId := "id", oauthClientSecret := "sec" }
      { token := "", refreshToken := "", expiresIn := 0 } 0
      { statusCode := 200,
        body := { access_token := "", refresh_token := "", expires_in := 0 } }).2.1 rfl,
   (c9_refresh_token { oauthClientId := "id", oauthClientSecret := "sec" }
      { token := "t", refreshToken := "r", expiresIn := 5 } 0
      { statusCode := 200,
        body := { access_token := "", refresh_token := "", expires_in := 0 } }).2.2.1
      (by decide),
   (c9_refresh_token { oauthClientId := "id", oauthClientSecret := "sec" }
      { token := "", refreshToken := "", expiresIn := 0 } 1000
      { statusCode := 200,
        body := { access_token := "a", refresh_token := "b", expires_in := 7200 } }).2.2.2.1
      rfl,
   (c9_refresh_token { oauthClientId := "id", oauthClientSecret := "sec" }
      { token := "", refreshToken := "", expiresIn := 0 } 1000
      { statusCode := 401,
        body := { access_token := "", refresh_token := "", expires_in := 0 } }).2.2.2.2
      (by decide)⟩

/-! ### C10 — `_getPrInfo` maps both `ref` and `baseBranch` to the source branch -/

/-- C10: every successful `_getPrInfo` result has `ref = baseBranch`, and on
a 2xx response whose body defines the accessed chains, both are the value of
`pr.source.branch.name` (never the destination branch) while `name` is
`PR-` followed by `pr.id`. -/
theorem c10_get_pr_info (r : HttpResponse) :
    (∀ info, getPrInfo r = .ok info → info.ref = info.baseBranch) ∧
    (∀ pr idVal srcBranch srcHash href,
      r.body = some pr → 200 ≤ r.statusCode → r.statusCode < 300 →
      jsGetChain pr ["id"] = .ok idVal →
      jsGetChain pr ["source", "branch", "name"] = .ok srcBranch →
      jsGetChain pr ["source", "commit", "hash"] = .ok srcHash →
      jsGetChain pr ["links", "html", "href"] = .ok href →
      getPrInfo r = .ok
        { name := "PR-" ++ (match idVal with | some v => jsTemplate v | none => "undefined")
          ref := srcBranch
          sha := srcHash
          url := href
          baseBranch := srcBranch }) := by
  have hb : ∀ pr idVal srcBranch srcHash href,
      r.body = some pr → 200 ≤ r.statusCode → r.statusCode < 300 →
      jsGetChain pr ["id"] = .ok idVal →
      jsGetChain pr ["source", "branch", "name"] = .ok srcBranch →
      jsGetChain pr ["source", "commit", "hash"] = .ok srcHash →
      jsGetChain pr ["links", "html", "href"] = .ok href →
      getPrInfo r = .ok
        { name := "PR-" ++ (match idVal with | some v => jsTemplate v | none => "undefined")
          ref := srcBranch
          sha := srcHash
          url := href
          baseBranch := srcBranch } := by
    intro pr idVal srcBranch srcHash href hpr h1 h2 hid hsrc hsha hhref
    unfold getPrInfo
    rw [checkResponseError, if_pos ⟨h1, h2⟩]
    simp only [hpr, hid, hsrc, hsha, hhref]
  refine ⟨?_, hb⟩
  intro info hok
  unfold getPrInfo at hok
  rcases hcre : checkResponseError r with e | u
  · simp only [hcre] at hok
    exact Except.noConfusion hok
  · simp only [hcre] at hok
    rcases hbody : r.body with _ | pr
    · simp only [hbody] at hok
      exact Except.noConfusion hok
    · simp only [hbody] at hok
      rcases h1 : jsGetChain pr ["id"] with e | idVal
      · simp only [h1] at hok
        exact Except.noConfusion hok
      · simp only [h1] at hok
        rcases h2 : jsGetChain pr ["source", "branch", "name"] with e | sb
        · simp only [h2] at hok
          exact Except.noConfusion hok
        · simp only [h2] at hok
          rcases h3 : jsGetChain pr ["source", "commit", "hash"] with e | sh
          · simp only [h3] at hok
            exact Except.noConfusion hok
          · simp only [h3] at hok
            rcases h4 : jsGetChain pr ["links", "html", "href"] with e | hf
            · simp only [h4] at hok
              exact Except.noConfusion hok
            · simp only [h4] at hok
              have h5 := Except.ok.inj hok
              subst h5
              rfl

/-- Witness for C10: a concrete PR body whose destination branch differs
from the source branch still yields `ref = baseBranch = source branch`. -/
theorem c10_witness :
    getPrInfo { statusCode := 200, body := some prResponseBody } = .ok
      { name := "PR-3"
        ref := some (.str "mynewbranch")
        sha := some (.str "40171b678527")
        url := some (.str "https://x/pr/3")
        baseBranch := some (.str "mynewbranch") } :=
  ((c10_get_pr_info _).2 prResponseBody (some (.num 3)) (some (.str "mynewbranch"))
      (some (.str "40171b678527")) (some (.str "https://x/pr/3"))
      rfl (by decide) (by decide) rfl rfl rfl rfl).trans (by rfl)

/-! ### C8 — scm-uri round trip: helper lemmas -/

/-- Splitting a two-chunk separated list. -/
theorem splitOn_pair {a b : List Char} {sep : Char} (ha : sep ∉ a) (hb : sep ∉ b) :
    (a ++ sep :: b).splitOn sep = [a, b] := by
  rw [splitOn_append_sep ha, splitOn_of_not_mem hb]

/-- Splitting a three-chunk separated list. -/
theorem splitOn_triple {a b c : List Char} {sep : Char} (ha : sep ∉ a) (hb : sep ∉ b)
    (hc : sep ∉ c) :
    (a ++ sep :: (b ++ sep :: c)).splitOn sep = [a, b, c] := by
  rw [splitOn_append_sep ha, splitOn_pair hb hc]

/-- The `git@` scheme test succeeds on a `git@`-headed character list. -/
theorem isPrefixOf_git (X : List Char) :
    List.isPrefixOf ['g', 'i', 't', '@'] ('g' :: 'i' :: 't' :: '@' :: X) = true := by
  rw [List.isPrefixOf_iff_prefix]
  exact ⟨X, rfl⟩

/-- The `git@` scheme test fails on an `https://`-headed character list. -/
theorem isPrefixOf_git_https (X : List Char) :
    List.isPrefixOf ['g', 'i', 't', '@']
      ('h' :: 't' :: 't' :: 'p' :: 's' :: ':' :: '/' :: '/' :: X) = false := by
  rw [Bool.eq_false_iff]
  intro h
  rw [List.isPrefixOf_iff_prefix] at h
  obtain ⟨t, ht⟩ := h
  simp only [List.cons_append] at ht
  injection ht with h1 _
  exact absurd h1 (by decide)

/-- The `https://` scheme test succeeds on an `https://`-headed list. -/
theorem isPrefixOf_https (X : List Char) :
    List.isPrefixOf ['h', 't', 't', 'p', 's', ':', '/', '/']
      ('h' :: 't' :: 't' :: 'p' :: 's' :: ':' :: '/' :: '/' :: X) = true := by
  rw [List.isPrefixOf_iff_prefix]
  exact ⟨X, rfl⟩

/-- Stripping the trailing `.git` of `repo.git` recovers the repo group. -/
theorem stripGitSuffix_append (repo : List Char) :
    stripGitSuffix (repo ++ ['.', 'g', 'i', 't']) = some repo := by
  unfold stripGitSuffix
  rw [if_pos]
  · have hlen : (repo ++ ['.', 'g', 'i', 't']).length - 4 = repo.length := by
      simp [List.length_append]
    rw [hlen]
    exact congrArg some (List.take_left repo _)
  · rw [List.isSuffixOf_iff_suffix]
    exact List.suffix_append repo ['.', 'g', 'i', 't']

/-- `repo.git` (no branch suffix) captures to the repo group and no branch
group. -/
theorem captureRepoBranch_none (repo : List Char) (hr : '#' ∉ repo) :
    captureRepoBranch (repo ++ ".git".data) = some (repo, none) := by
  have hall : '#' ∉ repo ++ ".git".data := by
    intro hmem
    rcases List.mem_append.mp hmem with h | h
    · exact hr h
    · exact absurd h (by decide)
  unfold captureRepoBranch
  simp only [splitOn_of_not_mem hall, stripGitSuffix_append, Option.map_some']

/-- `repo.git#branch` captures to the repo group and the `#`-prefixed branch
group. -/
theorem captureRepoBranch_some (repo br : List Char) (hr : '#' ∉ repo) (hb : '#' ∉ br) :
    captureRepoBranch (repo ++ (".git".data ++ '#' :: br)) = some (repo, some ('#' :: br)) := by
  have hshape : repo ++ (".git".data ++ '#' :: br) = (repo ++ ".git".data) ++ '#' :: br := by
    rw [List.append_assoc]
  have hall : '#' ∉ repo ++ ".git".data := by
    intro hmem
    rcases List.mem_append.mp hmem with h | h
    · exact hr h
    · exact absurd h (by decide)
  unfold captureRepoBranch
  simp only [hshape, splitOn_append_sep hall, splitOn_of_not_mem hb, stripGitSuffix_append,
    Option.map_some']

/-- The four-group capture on the rendered ssh form recovers host, user,
repo and the `#`-prefixed branch group. -/
theorem captureCheckoutUrl_renderSsh (c : RepoComponents)
    (hh : ':' ∉ c.host.data)
    (hu1 : ':' ∉ c.user.data) (hu2 : '/' ∉ c.user.data)
    (hr1 : ':' ∉ c.repo.data) (hr2 : '/' ∉ c.repo.data) (hr3 : '#' ∉ c.repo.data)
    (hbr : ∀ br, c.branch = some br →
      ':' ∉ br.data ∧ '/' ∉ br.data ∧ '#' ∉ br.data) :
    captureCheckoutUrl (renderSsh c) =
      some (c.host.data, c.user.data, c.repo.data,
        c.branch.map (fun br => '#' :: br.data)) := by
  rcases hb : c.branch with _ | br
  · have hd : (renderSsh c).data =
        'g' :: 'i' :: 't' :: '@' ::
          (c.host.data ++ ':' ::
            (c.user.data ++ '/' :: (c.repo.data ++ ['.', 'g', 'i', 't']))) := by
      simp only [renderSsh, hb, branchSuffix, String.data_append, List.append_assoc]
      rfl
    have hrest : ':' ∉ c.user.data ++ '/' :: (c.repo.data ++ ['.', 'g', 'i', 't']) := by
      simp only [List.mem_append, List.mem_cons]
      push_neg
      exact ⟨hu1, by decide, hr1, by decide⟩
    have hpath : '/' ∉ c.repo.data ++ ['.', 'g', 'i', 't'] := by
      simp only [List.mem_append]
      push_neg
      exact ⟨hr2, by decide⟩
    unfold captureCheckoutUrl
    rw [hd]
    simp only [isPrefixOf_git, eq_self_iff_true, if_true, List.drop_succ_cons,
      List.drop_zero, splitOn_pair hh hrest]
    unfold captureUserPath
    simp only [splitOn_pair hu2 hpath, captureRepoBranch_none c.repo.data hr3,
      Option.map_some']
    rfl
  · obtain ⟨hb1, hb2, hb3⟩ := hbr br hb
    have hd : (renderSsh c).data =
        'g' :: 'i' :: 't' :: '@' ::
          (c.host.data ++ ':' ::
            (c.user.data ++ '/' ::
              (c.repo.data ++ ('.' :: 'g' :: 'i' :: 't' :: '#' :: br.data)))) := by
      simp only [renderSsh, hb, branchSuffix, String.data_append, List.append_assoc]
      rfl
    have hrest : ':' ∉ c.user.data ++ '/' ::
        (c.repo.data ++ ('.' :: 'g' :: 'i' :: 't' :: '#' :: br.data)) := by
      simp only [List.mem_append, List.mem_cons]
      push_neg
      exact ⟨hu1, by decide, hr1, by decide, by decide, by decide, by decide, by decide, hb1⟩
    have hpath : '/' ∉ c.repo.data ++ ('.' :: 'g' :: 'i' :: 't' :: '#' :: br.data) := by
      simp only [List.mem_append, List.mem_cons]
      push_neg
      exact ⟨hr2, by decide, by decide, by decide, by decide, by decide, hb2⟩
    have htail : c.repo.data ++ ('.' :: 'g' :: 'i' :: 't' :: '#' :: br.data) =
        c.repo.data ++ (".git".data ++ '#' :: br.data) := rfl
    unfold captureCheckoutUrl
    rw [hd]
    simp only [isPrefixOf_git, eq_self_iff_true, if_true, List.drop_succ_cons,
      List.drop_zero, splitOn_pair hh hrest]
    unfold captureUserPath
    rw [htail]
    simp only [splitOn_pair hu2 (htail ▸ hpath), captureRepoBranch_some c.repo.data br.data hr3 hb3,
      Option.map_some']

/-- The four-group capture on the rendered https form recovers host, user,
repo and the `#`-prefixed branch group — the same groups as the ssh form. -/
theorem captureCheckoutUrl_renderHttps (c : RepoComponents)
    (hh1 : '/' ∉ c.host.data) (hh2 : '@' ∉ c.host.data)
    (hu1 : '/' ∉ c.user.data) (hu2 : '@' ∉ c.user.data)
    (hr1 : '/' ∉ c.repo.data) (hr2 : '@' ∉ c.repo.data) (hr3 : '#' ∉ c.repo.data)
    (hbr : ∀ br, c.branch = some br →
      '/' ∉ br.data ∧ '@' ∉ br.data ∧ '#' ∉ br.data) :
    captureCheckoutUrl (renderHttps c) =
      some (c.host.data, c.user.data, c.repo.data,
        c.branch.map (fun br => '#' :: br.data)) := by
  rcases hb : c.branch with _ | br
  · have hd : (renderHttps c).data =
        'h' :: 't' :: 't' :: 'p' :: 's' :: ':' :: '/' :: '/' ::
          (c.user.data ++ '@' ::
            (c.host.data ++ '/' ::
              (c.user.data ++ '/' :: (c.repo.data ++ ['.', 'g', 'i', 't'])))) := by
      simp only [renderHttps, hb, branchSuffix, String.data_append, List.append_assoc]
      rfl
    have hat : '@' ∉ c.host.data ++ '/' ::
        (c.user.data ++ '/' :: (c.repo.data ++ ['.', 'g', 'i', 't'])) := by
      simp only [List.mem_append, List.mem_cons]
      push_neg
      exact ⟨hh2, by decide, hu2, by decide, hr2, by decide⟩
    have htail : '/' ∉ c.repo.data ++ ['.', 'g', 'i', 't'] := by
      simp only [List.mem_append]
      push_neg
      exact ⟨hr1, by decide⟩
    unfold captureCheckoutUrl
    rw [hd]
    simp only [isPrefixOf_git_https, Bool.false_eq_true, if_false,
      isPrefixOf_https, eq_self_iff_true, if_true, List.drop_succ_cons,
      List.drop_zero, splitOn_pair hu2 hat, List.getLast?_singleton, Option.getD_some]
    simp only [splitOn_triple hh1 hu1 htail, captureRepoBranch_none c.repo.data hr3,
      Option.map_some']
    rfl
  · obtain ⟨hb1, hb2, hb3⟩ := hbr br hb
    have hd : (renderHttps c).data =
        'h' :: 't' :: 't' :: 'p' :: 's' :: ':' :: '/' :: '/' ::
          (c.user.data ++ '@' ::
            (c.host.data ++ '/' ::
              (c.user.data ++ '/' ::
                (c.repo.data ++ ('.' :: 'g' :: 'i' :: 't' :: '#' :: br.data))))) := by
      simp only [renderHttps, hb, branchSuffix, String.data_append, List.append_assoc]
      rfl
    have hat : '@' ∉ c.host.data ++ '/' ::
        (c.user.data ++ '/' ::
          (c.repo.data ++ ('.' :: 'g' :: 'i' :: 't' :: '#' :: br.data))) := by
      simp only [List.mem_append, List.mem_cons]
      push_neg
      exact ⟨hh2, by decide, hu2, by decide, hr2,
        by decide, by decide, by decide, by decide, by decide, hb2⟩
    have htail : '/' ∉ c.repo.data ++ ('.' :: 'g' :: 'i' :: 't' :: '#' :: br.data) := by
      simp only [List.mem_append, List.mem_cons]
      push_neg
      exact ⟨hr1, by decide, by decide, by decide, by decide, by decide, hb1⟩
    have hgit : c.repo.data ++ ('.' :: 'g' :: 'i' :: 't' :: '#' :: br.data) =
        c.repo.data ++ (".git".data ++ '#' :: br.data) := rfl
    unfold captureCheckoutUrl
    rw [hd]
    simp only [isPrefixOf_git_https, Bool.false_eq_true, if_false,
      isPrefixOf_https, eq_self_iff_true, if_true, List.drop_succ_cons,
      List.drop_zero, splitOn_pair hu2 hat, List.getLast?_singleton, Option.getD_some]
    simp only [splitOn_triple hh1 hu1 htail]
    rw [hgit]
    simp only [captureRepoBranch_some c.repo.data br.data hr3 hb3, Option.map_some']

/-- C8: round trip of the SCM URI.  For a `bitbucket.org` repository with
well-formed components, `_parseUrl` maps both the ssh and the https checkout
URL of the same repository to the same scmUri
`bitbucket.org:{user}/{uuid}:{branch or master}` built from the
provider-returned repository UUID, and `getScmUriParts` recovers the
hostname, the `{owner}/{repoUuid}` repoId and the branch from it. -/
theorem c8_scm_uri_round_trip (user repo uuid : String) (branch : Option String)
    (hu : ':' ∉ user.data ∧ '/' ∉ user.data ∧ '@' ∉ user.data)
    (hr : ':' ∉ repo.data ∧ '/' ∉ repo.data ∧ '@' ∉ repo.data ∧ '#' ∉ repo.data)
    (hq : ':' ∉ uuid.data)
    (hbr : ∀ br, branch = some br →
      ':' ∉ br.data ∧ '/' ∉ br.data ∧ '@' ∉ br.data ∧ '#' ∉ br.data ∧ br ≠ "") :
    parseUrl (renderSsh { host := hostnameCfg, user := user, repo := repo, branch := branch })
        { statusCode := 200, uuid := uuid } =
      .ok (hostnameCfg ++ ":" ++ user ++ "/" ++ uuid ++ ":" ++ branch.getD "master") ∧
    parseUrl (renderHttps { host := hostnameCfg, user := user, repo := repo, branch := branch })
        { statusCode := 200, uuid := uuid } =
      .ok (hostnameCfg ++ ":" ++ user ++ "/" ++ uuid ++ ":" ++ branch.getD "master") ∧
    getScmUriParts (hostnameCfg ++ ":" ++ user ++ "/" ++ uuid ++ ":" ++ branch.getD "master") =
      { hostname := some hostnameCfg
        repoId := some (user ++ "/" ++ uuid)
        branch := some (branch.getD "master") } := by
  have hinfo_ssh : getRepoInfo
      (renderSsh { host := hostnameCfg, user := user, repo := repo, branch := branch }) =
      some { hostname := hostnameCfg, repo := repo, branch := branch, username := user } := by
    unfold getRepoInfo
    rw [captureCheckoutUrl_renderSsh _ (show ':' ∉ hostnameCfg.data from by decide)
      hu.1 hu.2.1 hr.1 hr.2.1 hr.2.2.2
      (fun br h => ⟨(hbr br h).1, (hbr br h).2.1, (hbr br h).2.2.2.1⟩)]
    rcases branch with _ | br
    · rfl
    · rfl
  have hinfo_https : getRepoInfo
      (renderHttps { host := hostnameCfg, user := user, repo := repo, branch := branch }) =
      some { hostname := hostnameCfg, repo := repo, branch := branch, username := user } := by
    unfold getRepoInfo
    rw [captureCheckoutUrl_renderHttps _ (show '/' ∉ hostnameCfg.data from by decide)
      (show '@' ∉ hostnameCfg.data from by decide) hu.2.1 hu.2.2 hr.2.1 hr.2.2.1
      hr.2.2.2 (fun br h => ⟨(hbr br h).2.1, (hbr br h).2.2.1, (hbr br h).2.2.2.1⟩)]
    rcases branch with _ | br
    · rfl
    · rfl
  have hparse : ∀ u2 : String,
      getRepoInfo u2 =
        some { hostname := hostnameCfg, repo := repo, branch := branch, username := user } →
      parseUrl u2 { statusCode := 200, uuid := uuid } =
        .ok (hostnameCfg ++ ":" ++ user ++ "/" ++ uuid ++ ":" ++ branch.getD "master") := by
    intro u2 hu2
    unfold parseUrl
    rw [hu2]
    rcases branch with _ | br
    · simp only [Option.getD_none]
      rw [if_neg (fun hcon => hcon rfl), if_neg (by decide), if_neg (by decide)]
    · simp only [Option.getD_some]
      rw [if_neg ((hbr br rfl).2.2.2.2), if_neg (fun hcon => hcon rfl), if_neg (by decide),
        if_neg (by decide)]
  have hcol : ':' ∉ (branch.getD "master").data := by
    rcases hbv : branch with _ | br
    · decide
    · exact (hbr br hbv).1
  have hmk : (user ++ "/" ++ uuid).data = user.data ++ '/' :: uuid.data := by
    simp only [String.data_append, List.append_assoc]
    rfl
  have huri :
      getScmUriParts (hostnameCfg ++ ":" ++ user ++ "/" ++ uuid ++ ":" ++ branch.getD "master") =
      { hostname := some hostnameCfg
        repoId := some (user ++ "/" ++ uuid)
        branch := some (branch.getD "master") } := by
    have hsd : (hostnameCfg ++ ":" ++ user ++ "/" ++ uuid ++ ":" ++ branch.getD "master").data =
        "bitbucket.org".data ++ ':' ::
          (user.data ++ '/' :: (uuid.data ++ ':' :: (branch.getD "master").data)) := by
      simp only [hostnameCfg, String.data_append, List.append_assoc]
      rfl
    have hm : user.data ++ '/' :: (uuid.data ++ ':' :: (branch.getD "master").data) =
        (user.data ++ '/' :: uuid.data) ++ ':' :: (branch.getD "master").data := by
      rw [List.append_assoc]
      rfl
    have hmidcol : ':' ∉ user.data ++ '/' :: uuid.data := by
      simp only [List.mem_append, List.mem_cons]
      push_neg
      exact ⟨hu.1, by decide, hq⟩
    unfold getScmUriParts
    rw [hsd, hm, splitOn_append_sep (by decide), splitOn_pair hmidcol hcol]
    simp only [List.map_cons, List.map_nil]
    rw [show String.mk (user.data ++ '/' :: uuid.data) = user ++ "/" ++ uuid from by
      rw [← hmk]]
    rfl
  exact ⟨hparse _ hinfo_ssh, hparse _ hinfo_https, huri⟩

/-- Witness for C8: the concrete repository `batman/test` with branch
`mynewbranch` and provider UUID `u123`, in both checkout-URL forms. -/
theorem c8_witness :
    parseUrl "git@bitbucket.org:batman/test.git#mynewbranch"
        { statusCode := 200, uuid := "u123" } =
      .ok "bitbucket.org:batman/u123:mynewbranch" ∧
    parseUrl "https://batman@bitbucket.org/batman/test.git#mynewbranch"
        { statusCode := 200, uuid := "u123" } =
      .ok "bitbucket.org:batman/u123:mynewbranch" ∧
    getScmUriParts "bitbucket.org:batman/u123:mynewbranch" =
      { hostname := some "bitbucket.org", repoId := some "batman/u123"
        branch := some "mynewbranch" } := by
  have h := c8_scm_uri_round_trip "batman" "test" "u123" (some "mynewbranch")
    (by refine ⟨?_, ?_, ?_⟩ <;> decide)
    (by refine ⟨?_, ?_, ?_, ?_⟩ <;> decide)
    (by decide)
    (by
      intro br hbv
      injection hbv with h2
      subst h2
      refine ⟨?_, ?_, ?_, ?_, ?_⟩ <;> decide)
  exact ⟨h.1, h.2.1, h.2.2⟩

end Bitbucket
